import Mathlib

/-!
Verification of the meal-planning workflow orchestrator and its deterministic
calculation helpers, shallowly embedded from the TypeScript sources
(`services/calculations.ts`, `services/database.ts`, `routes/mealPlans.ts`,
and the smart-orchestrator module).

Modelling conventions: JavaScript numbers are modelled as rationals,
timestamps as integers (milliseconds), thrown exceptions as `Except String`,
external calls (reasoning gateway, catalog search, plan store) as explicit
oracle parameters, and JavaScript objects used as insertion-ordered maps as
association lists that update in place and append new keys at the end.
`Math.round` is `fun y => Int.floor (y + 1/2)`, which is Lean's `round`.
`localeCompare`-based sorting is modelled with the code-point order on
strings; `Array.prototype.sort` is stable, modelled by a stable insertion
sort.
-/

namespace HungryHippos

/-- JavaScript `Math.round`: floor of `x + 0.5`. -/
def jsRound (x : ℚ) : ℤ := ⌊x + 1/2⌋

/-- Two-decimal rounding, `Math.round(x * 100) / 100` from calculations.ts. -/
def round2 (x : ℚ) : ℚ := ((jsRound (x * 100) : ℤ) : ℚ) / 100

/-- `toLowerCase()` modelled character-by-character (ASCII case folding,
matching the identifiers and ingredient names exercised here). -/
def lowerStr (s : String) : String := String.mk (s.data.map Char.toLower)

/-- One entry of `recipe.extendedIngredients` (Spoonacular ingredient). -/
structure Ingredient where
  id : ℤ
  name : String
  amount : ℚ
  unit : String
  aisle : Option String
deriving Repr, DecidableEq

/-- `ScaledIngredient` from calculations.ts. -/
structure ScaledIngredient where
  id : ℤ
  name : String
  amount : ℚ
  unit : String
  originalAmount : ℚ
  scaleFactor : ℚ
  aisle : Option String
deriving Repr, DecidableEq

/-- `ConsolidatedIngredient` from calculations.ts. -/
structure ConsolidatedIngredient where
  name : String
  totalAmount : ℚ
  unit : String
  sources : List String
  aisle : String
deriving Repr, DecidableEq

/-- A Spoonacular recipe as used by `scaleRecipeIngredients` and recipe
selection.  `servings = none` models a missing/undefined serving count
(JavaScript falsy check `!recipe.servings`); `extendedIngredients = none`
models missing ingredient data. -/
structure Recipe where
  id : ℤ
  title : String
  servings : Option ℚ
  extendedIngredients : Option (List Ingredient)
deriving Repr, DecidableEq

/-- `scaleRecipeIngredients` from calculations.ts: throws on a missing or
zero serving count, returns `[]` when ingredient data is missing, otherwise
multiplies each amount by `targetServings / servings` and rounds to two
decimals. -/
def scaleRecipeIngredients (recipe : Recipe) (targetServings : ℚ) :
    Except String (List ScaledIngredient) :=
  match recipe.servings with
  | none => Except.error ("Recipe \"" ++ recipe.title ++ "\" has invalid serving count")
  | some s =>
    if s = 0 then
      Except.error ("Recipe \"" ++ recipe.title ++ "\" has invalid serving count")
    else
      let scaleFactor := targetServings / s
      match recipe.extendedIngredients with
      | none => Except.ok []
      | some ingredients =>
        Except.ok (ingredients.map (fun ing =>
          { id := ing.id
            name := ing.name
            amount := round2 (ing.amount * scaleFactor)
            unit := ing.unit
            originalAmount := ing.amount
            scaleFactor := scaleFactor
            aisle := ing.aisle }))

/-- The consolidation key `name.toLowerCase() + "_" + unit.toLowerCase()`
built by `consolidateIngredients`. -/
def keyOf (name unit : String) : String := lowerStr name ++ "_" ++ lowerStr unit

/-- One flattened work item of consolidation: a source (recipe) name paired
with one of its scaled ingredients. -/
abbrev ConsItem := String × ScaledIngredient

/-- The key of a flattened consolidation item. -/
def keyOfItem (it : ConsItem) : String := keyOf it.2.name it.2.unit

/-- `if (!sources.includes(recipeName)) sources.push(recipeName)` — append an
element unless it is already present.  Also used to describe first-occurrence
deduplication of key lists. -/
def pushUnique {α : Type} [DecidableEq α] (l : List α) (x : α) : List α :=
  if x ∈ l then l else l ++ [x]

/-- First-occurrence deduplication, as the left fold of `pushUnique`. -/
def dedupF {α : Type} [DecidableEq α] (l : List α) : List α :=
  l.foldl pushUnique []

/-- JavaScript `ingredient.aisle || 'Other'`: both a missing aisle and an
empty string are falsy and default to `"Other"`. -/
def aisleOrOther (a : Option String) : String :=
  match a with
  | none => "Other"
  | some s => if s = "" then "Other" else s

/-- Merging one more ingredient into an existing consolidated entry
(the `consolidated[key]` hit branch of `consolidateIngredients`). -/
def addToEntry (c : ConsolidatedIngredient) (recipeName : String)
    (ing : ScaledIngredient) : ConsolidatedIngredient :=
  { c with
    totalAmount := c.totalAmount + ing.amount
    sources := pushUnique c.sources recipeName }

/-- A fresh consolidated entry (the miss branch of `consolidateIngredients`). -/
def newEntry (recipeName : String) (ing : ScaledIngredient) :
    ConsolidatedIngredient :=
  { name := ing.name
    totalAmount := ing.amount
    unit := ing.unit
    sources := [recipeName]
    aisle := aisleOrOther ing.aisle }

/-- Updating the insertion-ordered map `consolidated` at `key`: modify the
entry in place when the key exists, append a new entry otherwise. -/
def updateConsolidated :
    List (String × ConsolidatedIngredient) → String → String → ScaledIngredient →
    List (String × ConsolidatedIngredient)
  | [], key, recipeName, ing => [(key, newEntry recipeName ing)]
  | (k, c) :: rest, key, recipeName, ing =>
    if k = key then (k, addToEntry c recipeName ing) :: rest
    else (k, c) :: updateConsolidated rest key recipeName ing

/-- Processing one flattened item against the accumulator map. -/
def consolidateStep (m : List (String × ConsolidatedIngredient)) (it : ConsItem) :
    List (String × ConsolidatedIngredient) :=
  updateConsolidated m (keyOfItem it) it.1 it.2

/-- Stable insertion (before the first strictly larger name) used to model
the stable `sort((a, b) => a.name.localeCompare(b.name))`. -/
def insertByName (x : ConsolidatedIngredient) :
    List ConsolidatedIngredient → List ConsolidatedIngredient
  | [] => [x]
  | y :: ys => if x.name < y.name then x :: y :: ys else y :: insertByName x ys

/-- Stable sort by `name`. -/
def sortByName (l : List ConsolidatedIngredient) : List ConsolidatedIngredient :=
  l.foldl (fun acc x => insertByName x acc) []

/-- Flattens the input record into its sequence of (source name, ingredient)
items in iteration order: sources in insertion order, then each source's
ingredients in list order. -/
def itemsOf (recipeIngredients : List (String × List ScaledIngredient)) :
    List ConsItem :=
  recipeIngredients.flatMap (fun p => p.2.map (fun ing => (p.1, ing)))

/-- `consolidateIngredients` from calculations.ts.  The input record is an
association list from source (recipe) name to scaled ingredients; the nested
`forEach` loops build the keyed map, then the values are rounded to two
decimals and sorted by name. -/
def consolidateIngredients
    (recipeIngredients : List (String × List ScaledIngredient)) :
    List ConsolidatedIngredient :=
  let consolidated := recipeIngredients.foldl
    (fun m p => p.2.foldl (fun m2 ing => consolidateStep m2 (p.1, ing)) m) []
  sortByName (consolidated.map (fun p =>
    { p.2 with totalAmount := round2 p.2.totalAmount }))

/-- The keyed map built by processing all flattened items in order. -/
def buildConsolidated (items : List ConsItem) : List (String × ConsolidatedIngredient) :=
  items.foldl consolidateStep []

/-- Association-list lookup (`consolidated[key]`). -/
def lookupKey (m : List (String × ConsolidatedIngredient)) (k : String) :
    Option ConsolidatedIngredient :=
  match m with
  | [] => none
  | (k2, c) :: rest => if k2 = k then some c else lookupKey rest k

/-- The effect of one item on the entry stored under its key: merge into the
existing entry or create a fresh one. -/
def absorb (o : Option ConsolidatedIngredient) (it : ConsItem) :
    Option ConsolidatedIngredient :=
  match o with
  | some c => some (addToEntry c it.1 it.2)
  | none => some (newEntry it.1 it.2)

/-- The entry produced by a first contributing item followed by the later
items that merge into it. -/
def entryOf (first : ConsItem) (rest : List ConsItem) : ConsolidatedIngredient :=
  rest.foldl (fun c it => addToEntry c it.1 it.2) (newEntry first.1 first.2)

/-! ## Orchestrator data model -/

/-- The four dietary complexity levels. -/
inductive Complexity
  | simple
  | moderate
  | complex
  | very_complex
deriving Repr, DecidableEq

/-- `DietaryAnalysisResult` from the orchestrator module. -/
structure DietaryAnalysisResult where
  overall_complexity : Complexity
  primary_constraints : List String
  cross_contamination_risks : List String
  special_accommodations : List String
  reasoning : String
  confidence_score : ℚ
deriving Repr, DecidableEq

/-- One attendee record, as loaded with the plan. -/
structure Attendee where
  name : String
  dietaryRestrictions : List String
  foodPreferences : List String
  specialNotes : Option String
  dietarySeverity : String
deriving Repr, DecidableEq

/-- A meal plan row, as returned by `getMealPlan`.  Dates are millisecond
timestamps; `budgetTotal = none` models a null/missing budget. -/
structure MealPlan where
  id : String
  name : String
  attendeeCount : ℕ
  startDate : ℤ
  endDate : ℤ
  budgetTotal : Option ℚ
  status : String
  attendees : List Attendee
deriving Repr, DecidableEq

/-- One entry of the in-memory step ledger (`WorkflowStep`).  The payload,
reasoning text and elapsed-time fields are omitted; name, agent role, status
and confidence are what the claims speak about. -/
structure WorkflowStep where
  stepName : String
  agentType : String
  status : String
  confidenceScore : Option ℚ
deriving Repr, DecidableEq

/-- The outcome of running one stage method: the value it returned or the
error it threw, together with the steps it pushed onto the shared ledger. -/
structure StageOutcome (α : Type) where
  outcome : Except String α
  addedSteps : List WorkflowStep
deriving Repr

/-! ## Stage 1: dietary analysis with refinement -/

/-- The refinement decision gate of `executeDietaryAnalysis`:
`overall_complexity === 'very_complex' || confidence_score < 0.7`. -/
def shouldRefine (a : DietaryAnalysisResult) : Bool :=
  a.overall_complexity == Complexity.very_complex || decide (a.confidence_score < 7/10)

/-- `refineDietaryAnalysis`: issues the escalated reasoning call (modelled by
the `refineCall` oracle).  On success the refined result is returned with a
completed refinement step; on any error the catch block falls back to the
original analysis, recording a failed refinement step — it never throws. -/
def refineDietaryAnalysis (initialAnalysis : DietaryAnalysisResult)
    (refineCall : Except String DietaryAnalysisResult) :
    DietaryAnalysisResult × WorkflowStep :=
  match refineCall with
  | Except.ok refinedAnalysis =>
    (refinedAnalysis,
      { stepName := "Dietary Analysis Refinement", agentType := "dietary",
        status := "completed", confidenceScore := some refinedAnalysis.confidence_score })
  | Except.error _ =>
    (initialAnalysis,
      { stepName := "Dietary Analysis Refinement", agentType := "dietary",
        status := "failed", confidenceScore := none })

/-- `executeDietaryAnalysis`: fails when the plan has no attendees or the
first reasoning call (oracle `analyzeCall`) fails; otherwise records a
completed step and, when the decision gate fires, runs the refinement
sub-stage. -/
def executeDietaryAnalysis (attendees : List Attendee)
    (analyzeCall : Except String DietaryAnalysisResult)
    (refineCall : Except String DietaryAnalysisResult) :
    StageOutcome DietaryAnalysisResult :=
  if attendees.isEmpty then
    { outcome := Except.error "Dietary analysis failed: No attendees found for dietary analysis"
      addedSteps := [{ stepName := "Dietary Analysis", agentType := "dietary",
                       status := "failed", confidenceScore := none }] }
  else
    match analyzeCall with
    | Except.error e =>
      { outcome := Except.error ("Dietary analysis failed: " ++ e)
        addedSteps := [{ stepName := "Dietary Analysis", agentType := "dietary",
                         status := "failed", confidenceScore := none }] }
    | Except.ok aiAnalysis =>
      let step1 : WorkflowStep :=
        { stepName := "Dietary Analysis", agentType := "dietary",
          status := "completed", confidenceScore := some aiAnalysis.confidence_score }
      if shouldRefine aiAnalysis then
        let refined := refineDietaryAnalysis aiAnalysis refineCall
        { outcome := Except.ok refined.1, addedSteps := [step1, refined.2] }
      else
        { outcome := Except.ok aiAnalysis, addedSteps := [step1] }

/-- Whether the refinement sub-stage was invoked in a dietary stage run:
a refinement step was pushed onto the ledger. -/
def refinementInvoked (o : StageOutcome DietaryAnalysisResult) : Bool :=
  o.addedSteps.any (fun s => s.stepName == "Dietary Analysis Refinement")

/-! ## Stage 2: meal-slot enumeration and per-slot recipe selection -/

/-- The per-day meal types, in enumeration order. -/
def mealTypes : List String := ["breakfast", "lunch", "dinner"]

/-- `daysDiff = Math.ceil((end - start) / (1000*60*60*24)) + 1` from
`executeRecipeSelection`. -/
def daysDiff (startMs endMs : ℤ) : ℤ :=
  ⌈((endMs - startMs : ℤ) : ℚ) / (1000 * 60 * 60 * 24)⌉ + 1

/-- The meal slots enumerated by the Stage 2 loops
(`for day in 1..daysDiff, for mealType of mealTypes`). -/
def stage2MealSlots (startMs endMs : ℤ) : List String :=
  (List.range (daysDiff startMs endMs).toNat).flatMap
    (fun d => mealTypes.map (fun meal => meal ++ "_day" ++ toString (d + 1)))

/-- The structured selection returned by the per-slot reasoning call. -/
structure RecipeSelection where
  selected_recipe_id : ℤ
  recipe_name : String
  selection_reasoning : String
  estimated_servings : ℚ
  confidence_score : ℚ
deriving Repr, DecidableEq

/-- The Selected Item row persisted by `saveSelectedRecipe`. -/
structure SelectedRecipeRow where
  mealSlot : String
  spoonacularRecipeId : ℤ
  recipeName : String
  selectionReasoning : String
  estimatedServings : ℚ
  scaledIngredients : List ScaledIngredient
  confidenceScore : ℚ
deriving Repr, DecidableEq

/-- The candidate list actually offered to the reasoning call:
`searchResults.slice(0, 5)`. -/
def offeredCandidates (searchResults : List Recipe) : List Recipe :=
  searchResults.take 5

/-- `selectRecipeWithAI` from the orchestrator.  `aiCall` is the reasoning
gateway (invoked on the offered top-5 candidates; an `error` also covers a
response without a structured function call), `getDetails` the catalog
detail lookup.  The returned row is the Selected Item persisted by
`saveSelectedRecipe`; an `error` outcome means the stage threw before
persisting. -/
def selectRecipeWithAI (mealSlot : String) (searchResults : List Recipe)
    (aiCall : List Recipe → Except String RecipeSelection)
    (getDetails : ℤ → Except String Recipe) :
    Except String SelectedRecipeRow :=
  if searchResults.isEmpty then
    Except.error ("No recipes available for " ++ mealSlot)
  else do
    let selection ← aiCall (offeredCandidates searchResults)
    match searchResults.find? (fun r => r.id == selection.selected_recipe_id) with
    | none => Except.error "Selected recipe not found in search results"
    | some selectedRecipe => do
      let detailedRecipe ←
        match selectedRecipe.extendedIngredients with
        | none => getDetails selection.selected_recipe_id
        | some _ => Except.ok selectedRecipe
      let scaledIngredients ← scaleRecipeIngredients detailedRecipe selection.estimated_servings
      Except.ok
        { mealSlot := mealSlot
          spoonacularRecipeId := selection.selected_recipe_id
          recipeName := selection.recipe_name
          selectionReasoning := selection.selection_reasoning
          estimatedServings := selection.estimated_servings
          scaledIngredients := scaledIngredients
          confidenceScore := selection.confidence_score }

/-! ## Workflow driver -/

/-- The `WorkflowResult` returned by `executeWorkflow`. -/
structure WorkflowRunResult where
  success : Bool
  mealPlanId : String
  steps : List WorkflowStep
  finalPlan : Option MealPlan
  error : Option String
deriving Repr, DecidableEq

/-- `executeWorkflow`: sets status to `processing`, loads the plan, runs the
four stages in order (each stage modelled by its outcome and the steps it
pushed), and on the first thrown error writes status `failed` and returns
`success = false` with the error message and the ledger accumulated so far;
on full success writes `completed` and returns the full ledger plus a fresh
plan snapshot.  The second component is the ordered list of plan-status
writes performed through `updateMealPlanStatus`. -/
def executeWorkflow (mealPlanId : String) (getPlan : Option MealPlan)
    (stage1 : StageOutcome DietaryAnalysisResult)
    (stage2 : DietaryAnalysisResult → StageOutcome Unit)
    (stage3 : StageOutcome Unit)
    (stage4 : StageOutcome Unit) :
    WorkflowRunResult × List String :=
  match getPlan with
  | none =>
    ({ success := false, mealPlanId := mealPlanId, steps := [],
       finalPlan := none,
       error := some ("Meal plan " ++ mealPlanId ++ " not found") },
     ["processing", "failed"])
  | some _ =>
    match stage1.outcome with
    | Except.error e =>
      ({ success := false, mealPlanId := mealPlanId, steps := stage1.addedSteps,
         finalPlan := none, error := some e },
       ["processing", "failed"])
    | Except.ok dietaryResult =>
      match (stage2 dietaryResult).outcome with
      | Except.error e =>
        ({ success := false, mealPlanId := mealPlanId,
           steps := stage1.addedSteps ++ (stage2 dietaryResult).addedSteps,
           finalPlan := none, error := some e },
         ["processing", "failed"])
      | Except.ok _ =>
        match stage3.outcome with
        | Except.error e =>
          ({ success := false, mealPlanId := mealPlanId,
             steps := stage1.addedSteps ++ (stage2 dietaryResult).addedSteps ++
               stage3.addedSteps,
             finalPlan := none, error := some e },
           ["processing", "failed"])
        | Except.ok _ =>
          match stage4.outcome with
          | Except.error e =>
            ({ success := false, mealPlanId := mealPlanId,
               steps := stage1.addedSteps ++ (stage2 dietaryResult).addedSteps ++
                 stage3.addedSteps ++ stage4.addedSteps,
               finalPlan := none, error := some e },
             ["processing", "failed"])
          | Except.ok _ =>
            ({ success := true, mealPlanId := mealPlanId,
               steps := stage1.addedSteps ++ (stage2 dietaryResult).addedSteps ++
                 stage3.addedSteps ++ stage4.addedSteps,
               finalPlan := getPlan, error := none },
             ["processing", "completed"])

/-! ## Stage 4: budget overrun gate -/

/-- The budget-compliance decision of `executeBudgetOptimization`
(lines guarded by `if (mealPlanForBudget?.budgetTotal)`): when a truthy
target budget exists and `(totalCost - budget) / budget > 0.15`, a
`budget_overrun_detected` Decision Record carrying the overage fraction is
persisted (`some overage`); otherwise no such record is persisted (`none`). -/
def budgetOverrunDecision (budgetTotal : Option ℚ) (totalCost : ℚ) : Option ℚ :=
  match budgetTotal with
  | none => none
  | some b =>
    if b = 0 then none
    else
      let budgetOverage := (totalCost - b) / b
      if budgetOverage > 15/100 then some budgetOverage else none

/-! ## Status writes outside the orchestrator -/

/-- The status vocabulary accepted by `PUT /api/meal-plans/:id/status` in
routes/mealPlans.ts (note `error`, not `failed`). -/
def statusRouteValidStatuses : List String :=
  ["planning", "processing", "completed", "error"]

/-- The initial status written by `createMealPlan` in services/database.ts. -/
def createMealPlanInitialStatus : String := "planning"

/-- Result of the status route: the HTTP code and the status value written
through `updateMealPlanStatus`, if any. -/
structure StatusRouteResult where
  httpStatus : ℕ
  statusWrite : Option String
deriving Repr, DecidableEq

/-- The `PUT /api/meal-plans/:id/status` handler: validates the id shape, the
presence of a string status and its membership in the accepted vocabulary,
checks the plan exists, then writes the requested status. -/
def putStatusRoute (id : String) (status : Option String) (planExists : Bool) :
    StatusRouteResult :=
  if id.length < 10 then { httpStatus := 400, statusWrite := none }
  else
    match status with
    | none => { httpStatus := 400, statusWrite := none }
    | some s =>
      if s ∉ statusRouteValidStatuses then { httpStatus := 400, statusWrite := none }
      else if !planExists then { httpStatus := 404, statusWrite := none }
      else { httpStatus := 200, statusWrite := some s }

/-! ## Concrete sample data for witnesses and counterexamples -/

/-- A sample attendee. -/
def sampleAttendee : Attendee :=
  { name := "Alex", dietaryRestrictions := ["vegetarian"], foodPreferences := [],
    specialNotes := none, dietarySeverity := "moderate" }

/-- A first-call dietary result with confidence 0.5 (moderate complexity). -/
def lowConfidenceAnalysis : DietaryAnalysisResult :=
  { overall_complexity := Complexity.moderate, primary_constraints := ["vegetarian"],
    cross_contamination_risks := [], special_accommodations := [],
    reasoning := "initial", confidence_score := 1/2 }

/-- A first-call dietary result with confidence 0.9 and moderate complexity. -/
def highConfidenceModerate : DietaryAnalysisResult :=
  { overall_complexity := Complexity.moderate, primary_constraints := ["vegetarian"],
    cross_contamination_risks := [], special_accommodations := [],
    reasoning := "initial", confidence_score := 9/10 }

/-- A refined dietary result returned by the refinement oracle. -/
def refinedSampleAnalysis : DietaryAnalysisResult :=
  { overall_complexity := Complexity.moderate, primary_constraints := ["vegetarian"],
    cross_contamination_risks := [], special_accommodations := [],
    reasoning := "refined", confidence_score := 19/20 }

/-- A one-ingredient list shared by the sample recipes. -/
def sampleIngredients : List Ingredient :=
  [{ id := 10, name := "rice", amount := 2, unit := "cup", aisle := some "Pantry" }]

/-- Builder for the sample search results. -/
def mkSampleRecipe (n : ℤ) : Recipe :=
  { id := n, title := "Recipe " ++ toString n, servings := some 4,
    extendedIngredients := some sampleIngredients }

/-- Six search results: the top five are offered to the reasoning call, the
sixth is not. -/
def sampleSixRecipes : List Recipe :=
  [mkSampleRecipe 1, mkSampleRecipe 2, mkSampleRecipe 3,
   mkSampleRecipe 4, mkSampleRecipe 5, mkSampleRecipe 6]

/-- A reasoning-call selection naming recipe 6 — present in the search
results but absent from the offered top five. -/
def sampleSelection6 : RecipeSelection :=
  { selected_recipe_id := 6, recipe_name := "Recipe 6",
    selection_reasoning := "fits the constraints", estimated_servings := 8,
    confidence_score := 4/5 }

/-- The Selected Item row the code persists for `sampleSelection6`
(scale factor 8/4 = 2). -/
def sampleRow6 : SelectedRecipeRow :=
  { mealSlot := "lunch_day1", spoonacularRecipeId := 6, recipeName := "Recipe 6",
    selectionReasoning := "fits the constraints", estimatedServings := 8,
    scaledIngredients :=
      [{ id := 10, name := "rice", amount := 4, unit := "cup",
         originalAmount := 2, scaleFactor := 2, aisle := some "Pantry" }],
    confidenceScore := 4/5 }

/-- A reasoning-call selection naming an id absent from the search results. -/
def sampleSelection999 : RecipeSelection :=
  { selected_recipe_id := 999, recipe_name := "Ghost recipe",
    selection_reasoning := "hallucinated", estimated_servings := 8,
    confidence_score := 4/5 }

/-- The spec's scaling example: serving count 4, one 2-cup ingredient. -/
def sampleRecipe4 : Recipe :=
  { id := 42, title := "Casserole", servings := some 4,
    extendedIngredients := some sampleIngredients }

/-- A recipe with serving count 0. -/
def sampleRecipeZero : Recipe :=
  { id := 43, title := "Broken", servings := some 0,
    extendedIngredients := some sampleIngredients }

/-- The spec's consolidation example: 1.5 cups of "Flour" from one source and
2.25 cups of "flour" from another. -/
def flourInput : List (String × List ScaledIngredient) :=
  [("recipe A",
    [{ id := 1, name := "Flour", amount := 3/2, unit := "cup",
       originalAmount := 3/2, scaleFactor := 1, aisle := none }]),
   ("recipe B",
    [{ id := 2, name := "flour", amount := 9/4, unit := "cup",
       originalAmount := 9/4, scaleFactor := 1, aisle := none }])]

/-- The single merged entry produced for `flourInput`. -/
def flourEntry : ConsolidatedIngredient :=
  { name := "Flour", totalAmount := 15/4, unit := "cup",
    sources := ["recipe A", "recipe B"], aisle := "Other" }

/-- Two ingredients with different case-insensitive (name, unit) pairs whose
concatenated keys collide: ("a_b", "c") and ("a", "b_c") both map to the
string key "a_b_c". -/
def collisionInput : List (String × List ScaledIngredient) :=
  [("r1",
    [{ id := 1, name := "a_b", amount := 1, unit := "c",
       originalAmount := 1, scaleFactor := 1, aisle := none }]),
   ("r2",
    [{ id := 2, name := "a", amount := 2, unit := "b_c",
       originalAmount := 2, scaleFactor := 1, aisle := none }])]

/-- The case-insensitive (name, unit) PAIRS of the flattened input items,
deduplicated in first-occurrence order — the grouping key the specification
describes. -/
def pairKeysOf (input : List (String × List ScaledIngredient)) :
    List (String × String) :=
  dedupF ((itemsOf input).map (fun it => (lowerStr it.2.name, lowerStr it.2.unit)))

/-- The concatenated string keys of the flattened input items, deduplicated
in first-occurrence order — the grouping key the code actually uses. -/
def stringKeysOf (input : List (String × List ScaledIngredient)) : List String :=
  dedupF ((itemsOf input).map keyOfItem)

/-- A sample meal plan (3-day range, budget 50). -/
def samplePlan : MealPlan :=
  { id := "plan_abcdefgh", name := "Retreat", attendeeCount := 2,
    startDate := 0, endDate := 172800000, budgetTotal := some 50,
    status := "planning", attendees := [sampleAttendee] }

/-- A trivially succeeding stage outcome. -/
def okStage : StageOutcome Unit := { outcome := Except.ok (), addedSteps := [] }

/-- A sample completed Recipe Selection ledger step. -/
def sampleSelectionStep : WorkflowStep :=
  { stepName := "Recipe Selection", agentType := "meal_planner",
    status := "completed", confidenceScore := some (4/5) }

/-- A sample failing Quantity Calculations stage. -/
def failingStage3 : StageOutcome Unit :=
  { outcome := Except.error "Quantity calculations failed: No recipes found for quantity calculations",
    addedSteps := [{ stepName := "Quantity Calculations", agentType := "orchestrator",
                     status := "failed", confidenceScore := none }] }

/-- A dietary stage outcome whose reasoning call failed. -/
def dummyDietaryStage : StageOutcome DietaryAnalysisResult :=
  { outcome := Except.error "Dietary analysis failed: gateway error", addedSteps := [] }

/-! ## Theorems -/

/-- The Boolean refinement gate agrees with the spec predicate. -/
theorem shouldRefine_iff (a : DietaryAnalysisResult) :
    shouldRefine a = true ↔
      (a.overall_complexity = Complexity.very_complex ∨ a.confidence_score < 7/10) := by
  simp [shouldRefine]

/-- Claim C1: for every dietary-analysis first-call result, the refinement
sub-stage is invoked if and only if the result's overall complexity is
`very_complex` or its confidence score is below 0.7; in particular a first
result with confidence 0.5 triggers refinement and one with confidence 0.9
and moderate complexity does not. -/
theorem dietary_refinement_gate :
    (∀ (attendees : List Attendee) (a : DietaryAnalysisResult)
        (refineCall : Except String DietaryAnalysisResult),
      attendees ≠ [] →
      (refinementInvoked (executeDietaryAnalysis attendees (Except.ok a) refineCall) = true ↔
        (a.overall_complexity = Complexity.very_complex ∨ a.confidence_score < 7/10))) ∧
    refinementInvoked (executeDietaryAnalysis [sampleAttendee]
      (Except.ok lowConfidenceAnalysis) (Except.ok refinedSampleAnalysis)) = true ∧
    refinementInvoked (executeDietaryAnalysis [sampleAttendee]
      (Except.ok highConfidenceModerate) (Except.ok refinedSampleAnalysis)) = false := by
  refine ⟨?_, ?_, ?_⟩
  · intro attendees a refineCall h
    obtain ⟨x, xs, rfl⟩ := List.exists_cons_of_ne_nil h
    rw [← shouldRefine_iff]
    by_cases hs : shouldRefine a
    · cases refineCall <;>
        simp [executeDietaryAnalysis, refinementInvoked, refineDietaryAnalysis, hs]
    · simp [executeDietaryAnalysis, refinementInvoked, hs]
  · norm_num +decide [executeDietaryAnalysis, refinementInvoked, refineDietaryAnalysis,
      shouldRefine, lowConfidenceAnalysis, sampleAttendee]
  · norm_num +decide [executeDietaryAnalysis, refinementInvoked, refineDietaryAnalysis,
      shouldRefine, highConfidenceModerate, sampleAttendee]

/-- Witness for C1: a concrete first-call result with confidence 0.5 makes
the gate fire. -/
theorem dietary_refinement_gate_witness :
    refinementInvoked (executeDietaryAnalysis [sampleAttendee]
      (Except.ok lowConfidenceAnalysis) (Except.error "gateway down")) = true :=
  (dietary_refinement_gate.1 [sampleAttendee] lowConfidenceAnalysis
      (Except.error "gateway down") (by simp)).mpr
    (Or.inr (by norm_num [lowConfidenceAnalysis]))

/-- Claim C4: when the refinement gate fires and the refinement reasoning
call itself fails, Stage 1 returns the original (unrefined) analysis and the
workflow goes on to run Stage 2 with it — a refinement failure never aborts
the run. -/
theorem refinement_failure_nonfatal
    (attendees : List Attendee) (a : DietaryAnalysisResult) (e : String)
    (h1 : attendees ≠ []) (h2 : shouldRefine a = true) :
    (executeDietaryAnalysis attendees (Except.ok a) (Except.error e)).outcome =
      Except.ok a ∧
    (∀ (mealPlanId : String) (plan : MealPlan)
        (stage2 : DietaryAnalysisResult → StageOutcome Unit)
        (stage3 stage4 : StageOutcome Unit),
      ∃ rest,
        ((executeWorkflow mealPlanId (some plan)
            (executeDietaryAnalysis attendees (Except.ok a) (Except.error e))
            stage2 stage3 stage4).1).steps =
          (executeDietaryAnalysis attendees (Except.ok a) (Except.error e)).addedSteps ++
            (stage2 a).addedSteps ++ rest) := by
  obtain ⟨x, xs, rfl⟩ := List.exists_cons_of_ne_nil h1
  have houtcome : (executeDietaryAnalysis (x :: xs) (Except.ok a) (Except.error e)).outcome =
      Except.ok a := by
    simp [executeDietaryAnalysis, refineDietaryAnalysis, h2]
  refine ⟨houtcome, ?_⟩
  intro mealPlanId plan stage2 stage3 stage4
  unfold executeWorkflow
  rw [houtcome]
  rcases hs2 : (stage2 a).outcome with e2 | u2
  · exact ⟨[], by simp [hs2]⟩
  · rcases hs3 : stage3.outcome with e3 | u3
    · exact ⟨stage3.addedSteps, by simp [hs2, hs3]⟩
    · rcases hs4 : stage4.outcome with e4 | u4
      · exact ⟨stage3.addedSteps ++ stage4.addedSteps, by simp [hs2, hs3, hs4]⟩
      · exact ⟨stage3.addedSteps ++ stage4.addedSteps, by simp [hs2, hs3, hs4]⟩

/-- Witness for C4: a concrete run in which the gate fires (confidence 0.5)
and the refinement call fails still yields the original analysis. -/
theorem refinement_failure_nonfatal_witness :
    (executeDietaryAnalysis [sampleAttendee] (Except.ok lowConfidenceAnalysis)
        (Except.error "gateway timeout")).outcome = Except.ok lowConfidenceAnalysis :=
  (refinement_failure_nonfatal [sampleAttendee] lowConfidenceAnalysis "gateway timeout"
      (by simp) (by norm_num [shouldRefine, lowConfidenceAnalysis])).1

/-- Claim C7: `scaleRecipeIngredients` multiplies every ingredient amount by
`target / original` and rounds to two decimals, and throws when the original
serving count is zero or missing; in particular a 2-unit amount at original
servings 4 scaled to 12 yields 6 at scale factor 3. -/
theorem scaleRecipeIngredients_spec :
    (∀ (r : Recipe) (t s : ℚ) (ings : List Ingredient),
      r.servings = some s → s ≠ 0 → r.extendedIngredients = some ings →
      scaleRecipeIngredients r t = Except.ok (ings.map (fun ing =>
        { id := ing.id, name := ing.name, amount := round2 (ing.amount * (t / s)),
          unit := ing.unit, originalAmount := ing.amount, scaleFactor := t / s,
          aisle := ing.aisle }))) ∧
    (∀ (r : Recipe) (t : ℚ), r.servings = none ∨ r.servings = some 0 →
      scaleRecipeIngredients r t =
        Except.error ("Recipe \"" ++ r.title ++ "\" has invalid serving count")) ∧
    scaleRecipeIngredients sampleRecipe4 12 = Except.ok
      [{ id := 10, name := "rice", amount := 6, unit := "cup",
         originalAmount := 2, scaleFactor := 3, aisle := some "Pantry" }] ∧
    scaleRecipeIngredients sampleRecipeZero 12 =
      Except.error "Recipe \"Broken\" has invalid serving count" := by
  refine ⟨?_, ?_, ?_, ?_⟩
  · intro r t s ings h1 h2 h3
    simp [scaleRecipeIngredients, h1, h2, h3]
  · intro r t h
    rcases h with h | h <;> simp [scaleRecipeIngredients, h]
  · norm_num [scaleRecipeIngredients, sampleRecipe4, sampleIngredients, round2, jsRound]
  · norm_num [scaleRecipeIngredients, sampleRecipeZero]
    decide

/-- Witness for C7: the universal scaling law instantiated at the spec's
4-to-12 example. -/
theorem scaleRecipeIngredients_spec_witness :
    scaleRecipeIngredients sampleRecipe4 12 = Except.ok (sampleIngredients.map (fun ing =>
      { id := ing.id, name := ing.name, amount := round2 (ing.amount * ((12 : ℚ) / 4)),
        unit := ing.unit, originalAmount := ing.amount, scaleFactor := (12 : ℚ) / 4,
        aisle := ing.aisle })) :=
  scaleRecipeIngredients_spec.1 sampleRecipe4 12 4 sampleIngredients rfl (by norm_num) rfl

/-- Claim C8: the Stage 4 budget-overrun Decision Record is persisted exactly
when a (truthy) target budget exists and the overage fraction
`(total - target) / target` exceeds 0.15, and it carries that fraction;
total 120 against target 100 persists the record with fraction 0.2, total
110 does not, and a plan without a budget never does. -/
theorem budget_overrun_gate :
    (∀ (budgetTotal : Option ℚ) (totalCost : ℚ),
      (budgetOverrunDecision budgetTotal totalCost).isSome = true ↔
        ∃ b, budgetTotal = some b ∧ (totalCost - b) / b > 15/100) ∧
    (∀ (b totalCost ov : ℚ), budgetOverrunDecision (some b) totalCost = some ov →
      ov = (totalCost - b) / b) ∧
    budgetOverrunDecision (some 100) 120 = some (1/5) ∧
    budgetOverrunDecision (some 100) 110 = none ∧
    budgetOverrunDecision none 120 = none := by
  refine ⟨?_, ?_, ?_, ?_, ?_⟩
  · intro bt t
    cases bt with
    | none => simp [budgetOverrunDecision]
    | some b =>
      by_cases hb : b = 0
      · subst hb
        simp [budgetOverrunDecision]
        norm_num
      · simp only [budgetOverrunDecision, if_neg hb]
        by_cases hov : (t - b) / b > 15/100
        · simp [hov, hb]
        · simp [hov, hb]
  · intro b t ov h
    simp only [budgetOverrunDecision] at h
    split_ifs at h with h1 h2 <;> simp_all
  · norm_num [budgetOverrunDecision]
  · norm_num [budgetOverrunDecision]
  · rfl

/-- Witness for C8: the 120-versus-100 instance through the iff. -/
theorem budget_overrun_gate_witness :
    (budgetOverrunDecision (some 100) 120).isSome = true :=
  (budget_overrun_gate.1 (some 100) 120).mpr ⟨100, rfl, by norm_num⟩

/-- All status writes `executeWorkflow` can perform. -/
theorem executeWorkflow_writes (mealPlanId : String) (getPlan : Option MealPlan)
    (stage1 : StageOutcome DietaryAnalysisResult)
    (stage2 : DietaryAnalysisResult → StageOutcome Unit)
    (stage3 stage4 : StageOutcome Unit) :
    (executeWorkflow mealPlanId getPlan stage1 stage2 stage3 stage4).2 =
        ["processing", "failed"] ∨
      (executeWorkflow mealPlanId getPlan stage1 stage2 stage3 stage4).2 =
        ["processing", "completed"] := by
  unfold executeWorkflow
  rcases getPlan with _ | p
  · simp
  · rcases stage1.outcome with e1 | d <;> simp only
    · simp
    · rcases (stage2 d).outcome with e2 | u2 <;> simp only
      · simp
      · rcases stage3.outcome with e3 | u3 <;> simp only
        · simp
        · rcases stage4.outcome with e4 | u4 <;> simp

/-- Counterexample to claim C9: the `PUT /api/meal-plans/:id/status` route —
a component other than the Workflow Orchestrator — performs a plan-status
write, and the value it writes, `"error"`, is outside the claimed
enumeration `{planning, processing, completed, failed}`. -/
theorem status_route_counterexample :
    putStatusRoute "plan_abcdefgh" (some "error") true =
      { httpStatus := 200, statusWrite := some "error" } ∧
    "error" ∉ ["planning", "processing", "completed", "failed"] := by
  constructor
  · decide
  · decide

/-- Claim C9 as amended: the Orchestrator writes only
`processing`/`completed`/`failed` and plan creation writes `planning`, but
the status-update HTTP route also writes plan status, accepting any of
`planning`/`processing`/`completed`/`error`; all reachable status values are
therefore confined to `{planning, processing, completed, failed, error}` and
the Orchestrator is not the sole status writer. -/
theorem status_writers_amended :
    (∀ (mealPlanId : String) (getPlan : Option MealPlan)
        (stage1 : StageOutcome DietaryAnalysisResult)
        (stage2 : DietaryAnalysisResult → StageOutcome Unit)
        (stage3 stage4 : StageOutcome Unit) (s : String),
      s ∈ (executeWorkflow mealPlanId getPlan stage1 stage2 stage3 stage4).2 →
        s ∈ ["processing", "completed", "failed"]) ∧
    (∀ (id : String) (status : Option String) (planExists : Bool) (s : String),
      (putStatusRoute id status planExists).statusWrite = some s →
        s ∈ statusRouteValidStatuses) ∧
    createMealPlanInitialStatus = "planning" ∧
    (∀ s : String,
      (s ∈ ["processing", "completed", "failed"] ∨ s ∈ statusRouteValidStatuses ∨
        s = createMealPlanInitialStatus) →
      s ∈ ["planning", "processing", "completed", "failed", "error"]) := by
  refine ⟨?_, ?_, rfl, ?_⟩
  · intro mealPlanId getPlan stage1 stage2 stage3 stage4 s h
    rcases executeWorkflow_writes mealPlanId getPlan stage1 stage2 stage3 stage4 with
      hw | hw <;> rw [hw] at h <;> simp at h <;> rcases h with h | h <;> simp [h]
  · intro id status planExists s h
    unfold putStatusRoute at h
    by_cases h1 : id.length < 10
    · rw [if_pos h1] at h
      simp at h
    · rw [if_neg h1] at h
      cases status with
      | none => simp at h
      | some s2 =>
        simp only at h
        by_cases h2 : s2 ∉ statusRouteValidStatuses
        · rw [if_pos h2] at h
          simp at h
        · rw [if_neg h2] at h
          cases planExists with
          | false => simp at h
          | true =>
            simp at h
            rw [← h]
            exact not_not.mp h2
  · intro s h
    rcases h with h | h | h
    · simp at h; rcases h with h | h | h <;> simp [h]
    · simp [statusRouteValidStatuses] at h
      rcases h with h | h | h | h <;> simp [h]
    · simp [createMealPlanInitialStatus] at h; simp [h]

/-- Witness for the amended C9: a concrete failing run's writes are inside
the orchestrator vocabulary. -/
theorem status_writers_amended_witness :
    "failed" ∈ ["processing", "completed", "failed"] :=
  status_writers_amended.1 "p" none dummyDietaryStage (fun _ => okStage) okStage okStage
    "failed" (by simp [executeWorkflow])

/-- Claim C3: whichever stage is the first to throw an unrecovered error,
`executeWorkflow` writes status `failed` and returns `success = false`, the
error message and exactly the ledger accumulated up to and including the
failing stage (earlier steps are never discarded); when every stage
succeeds it writes `completed` and returns the full ledger plus the final
plan snapshot. -/
theorem executeWorkflow_spec (mealPlanId : String) (getPlan : Option MealPlan)
    (stage1 : StageOutcome DietaryAnalysisResult)
    (stage2 : DietaryAnalysisResult → StageOutcome Unit)
    (stage3 stage4 : StageOutcome Unit) :
    (getPlan = none →
      executeWorkflow mealPlanId getPlan stage1 stage2 stage3 stage4 =
        ({ success := false, mealPlanId := mealPlanId, steps := [], finalPlan := none,
           error := some ("Meal plan " ++ mealPlanId ++ " not found") },
         ["processing", "failed"])) ∧
    (∀ p e, getPlan = some p → stage1.outcome = Except.error e →
      executeWorkflow mealPlanId getPlan stage1 stage2 stage3 stage4 =
        ({ success := false, mealPlanId := mealPlanId, steps := stage1.addedSteps,
           finalPlan := none, error := some e },
         ["processing", "failed"])) ∧
    (∀ p d e, getPlan = some p → stage1.outcome = Except.ok d →
      (stage2 d).outcome = Except.error e →
      executeWorkflow mealPlanId getPlan stage1 stage2 stage3 stage4 =
        ({ success := false, mealPlanId := mealPlanId,
           steps := stage1.addedSteps ++ (stage2 d).addedSteps,
           finalPlan := none, error := some e },
         ["processing", "failed"])) ∧
    (∀ p d e, getPlan = some p → stage1.outcome = Except.ok d →
      (stage2 d).outcome = Except.ok () → stage3.outcome = Except.error e →
      executeWorkflow mealPlanId getPlan stage1 stage2 stage3 stage4 =
        ({ success := false, mealPlanId := mealPlanId,
           steps := stage1.addedSteps ++ (stage2 d).addedSteps ++ stage3.addedSteps,
           finalPlan := none, error := some e },
         ["processing", "failed"])) ∧
    (∀ p d e, getPlan = some p → stage1.outcome = Except.ok d →
      (stage2 d).outcome = Except.ok () → stage3.outcome = Except.ok () →
      stage4.outcome = Except.error e →
      executeWorkflow mealPlanId getPlan stage1 stage2 stage3 stage4 =
        ({ success := false, mealPlanId := mealPlanId,
           steps := stage1.addedSteps ++ (stage2 d).addedSteps ++ stage3.addedSteps ++
             stage4.addedSteps,
           finalPlan := none, error := some e },
         ["processing", "failed"])) ∧
    (∀ p d, getPlan = some p → stage1.outcome = Except.ok d →
      (stage2 d).outcome = Except.ok () → stage3.outcome = Except.ok () →
      stage4.outcome = Except.ok () →
      executeWorkflow mealPlanId getPlan stage1 stage2 stage3 stage4 =
        ({ success := true, mealPlanId := mealPlanId,
           steps := stage1.addedSteps ++ (stage2 d).addedSteps ++ stage3.addedSteps ++
             stage4.addedSteps,
           finalPlan := some p, error := none },
         ["processing", "completed"])) := by
  refine ⟨?_, ?_, ?_, ?_, ?_, ?_⟩
  · intro h
    subst h
    rfl
  · intro p e hp h1
    subst hp
    simp [executeWorkflow, h1]
  · intro p d e hp h1 h2
    subst hp
    simp [executeWorkflow, h1, h2]
  · intro p d e hp h1 h2 h3
    subst hp
    simp [executeWorkflow, h1, h2, h3]
  · intro p d e hp h1 h2 h3 h4
    subst hp
    simp [executeWorkflow, h1, h2, h3, h4]
  · intro p d hp h1 h2 h3 h4
    subst hp
    simp [executeWorkflow, h1, h2, h3, h4]

/-- Witness for C3: a concrete run failing at Stage 3 preserves the Stage 1
and Stage 2 steps, surfaces the Stage 3 error and writes `failed`. -/
theorem executeWorkflow_spec_witness :
    executeWorkflow "plan_abcdefgh" (some samplePlan)
        (executeDietaryAnalysis [sampleAttendee] (Except.ok highConfidenceModerate)
          (Except.ok refinedSampleAnalysis))
        (fun _ => { outcome := Except.ok (), addedSteps := [sampleSelectionStep] })
        failingStage3 okStage =
      ({ success := false, mealPlanId := "plan_abcdefgh",
         steps := (executeDietaryAnalysis [sampleAttendee] (Except.ok highConfidenceModerate)
             (Except.ok refinedSampleAnalysis)).addedSteps ++
           [sampleSelectionStep] ++ failingStage3.addedSteps,
         finalPlan := none,
         error := some "Quantity calculations failed: No recipes found for quantity calculations" },
       ["processing", "failed"]) :=
  (executeWorkflow_spec "plan_abcdefgh" (some samplePlan)
      (executeDietaryAnalysis [sampleAttendee] (Except.ok highConfidenceModerate)
        (Except.ok refinedSampleAnalysis))
      (fun _ => { outcome := Except.ok (), addedSteps := [sampleSelectionStep] })
      failingStage3 okStage).2.2.2.1 samplePlan highConfidenceModerate
    "Quantity calculations failed: No recipes found for quantity calculations" rfl
    (by norm_num +decide [executeDietaryAnalysis, shouldRefine, highConfidenceModerate,
      sampleAttendee])
    rfl rfl

/-- The length of each per-day slot block. -/
theorem slotBlock_length (d : ℕ) :
    (mealTypes.map (fun meal => meal ++ "_day" ++ toString (d + 1))).length = 3 := by
  simp [mealTypes]

/-- Indexing a concatenation of constant-length-3 blocks. -/
theorem bind_length_triple (f : ℕ → List String) (hf : ∀ d, (f d).length = 3)
    (n : ℕ) : ((List.range n).flatMap f).length = 3 * n := by
  rw [List.length_bind]
  have hconst : (List.length ∘ f) = fun _ => 3 := funext fun d => hf d
  rw [hconst, List.map_const', List.sum_replicate, List.length_range, smul_eq_mul]
  omega

/-- Indexing a concatenation of constant-length-3 blocks. -/
theorem bind_triple_get (f : ℕ → List String) (hf : ∀ d, (f d).length = 3) :
    ∀ (n d k : ℕ), d < n → k < 3 →
      ((List.range n).flatMap f).get? (3 * d + k) = (f d).get? k := by
  intro n
  induction n with
  | zero => intro d k hd hk; exact absurd hd (by omega)
  | succ m ih =>
    intro d k hd hk
    rw [List.range_succ, List.append_bind]
    have hlen : ((List.range m).flatMap f).length = 3 * m := bind_length_triple f hf m
    rcases Nat.lt_or_ge d m with hdm | hdm
    · rw [List.get?_append (by omega), ih d k hdm hk]
    · have hdm2 : d = m := by omega
      subst hdm2
      rw [List.get?_append_right (by omega), hlen]
      simp only [List.cons_bind, List.nil_bind, List.append_nil]
      congr 1
      omega

/-- Claim C5: for a plan whose dates are `D = ceil((end - start) / 1 day) + 1`
days apart (inclusive), Stage 2 enumerates exactly `3 * D` meal slots, the
slot at position `3*d + k` being meal type `k` of day `d+1` — i.e. the order
`breakfast_day1, lunch_day1, dinner_day1, ..., dinner_dayD`; a 3-day plan
yields exactly the nine slots in that order. -/
theorem stage2_slot_enumeration (startMs endMs : ℤ) (h : startMs ≤ endMs) :
    1 ≤ (daysDiff startMs endMs).toNat ∧
    (stage2MealSlots startMs endMs).length = 3 * (daysDiff startMs endMs).toNat ∧
    (∀ d k : ℕ, d < (daysDiff startMs endMs).toNat → k < 3 →
      (stage2MealSlots startMs endMs).get? (3 * d + k) =
        (mealTypes.get? k).map (fun meal => meal ++ "_day" ++ toString (d + 1))) ∧
    stage2MealSlots 0 172800000 =
      ["breakfast_day1", "lunch_day1", "dinner_day1",
       "breakfast_day2", "lunch_day2", "dinner_day2",
       "breakfast_day3", "lunch_day3", "dinner_day3"] := by
  have hD : 1 ≤ daysDiff startMs endMs := by
    have hnum : (0 : ℚ) ≤ ((endMs - startMs : ℤ) : ℚ) / (1000 * 60 * 60 * 24) := by
      apply div_nonneg
      · exact_mod_cast sub_nonneg.mpr h
      · norm_num
    have := Int.ceil_nonneg hnum
    unfold daysDiff
    omega
  refine ⟨by omega, ?_, ?_, ?_⟩
  · unfold stage2MealSlots
    exact bind_length_triple _ (fun d => slotBlock_length d) _
  · intro d k hd hk
    unfold stage2MealSlots
    rw [bind_triple_get _ (fun d2 => slotBlock_length d2) _ d k hd hk]
    exact List.get?_map _ _ _
  · have h3 : daysDiff 0 172800000 = 3 := by
      unfold daysDiff
      norm_num
    unfold stage2MealSlots
    rw [h3]
    decide

/-- Witness for C5: the 3-day instance, via the theorem. -/
theorem stage2_slot_enumeration_witness :
    stage2MealSlots 0 172800000 =
      ["breakfast_day1", "lunch_day1", "dinner_day1",
       "breakfast_day2", "lunch_day2", "dinner_day2",
       "breakfast_day3", "lunch_day3", "dinner_day3"] :=
  (stage2_slot_enumeration 0 172800000 (by norm_num)).2.2.2

/-- Counterexample to claim C2: with six search results, the reasoning call
is offered only the top five, yet a returned `selected_recipe_id` naming the
sixth result — absent from the offered candidates — does NOT fail the stage:
the code validates against the full search-result list, so a Selected Item
row is persisted. -/
theorem selectRecipe_offered_gate_counterexample :
    selectRecipeWithAI "lunch_day1" sampleSixRecipes
        (fun _ => Except.ok sampleSelection6) (fun _ => Except.error "unused") =
      Except.ok sampleRow6 ∧
    sampleSelection6.selected_recipe_id ∉ (offeredCandidates sampleSixRecipes).map Recipe.id := by
  constructor
  · norm_num +decide [selectRecipeWithAI, sampleSixRecipes, mkSampleRecipe, offeredCandidates,
      sampleSelection6, sampleRow6, scaleRecipeIngredients, sampleIngredients, round2, jsRound,
      Bind.bind, Except.bind]
  · decide

/-- Claim C2 as amended: the reasoning call is offered at most the top five
search candidates (`slice(0, 5)`), and the stage fails with no Selected Item
row persisted whenever the returned `selected_recipe_id` does not appear in
the FULL search-result list (the validation set is the full list, not the
offered top five). -/
theorem selectRecipe_candidate_validation :
    (∀ searchResults : List Recipe,
      (offeredCandidates searchResults).length ≤ 5 ∧
      offeredCandidates searchResults = searchResults.take 5) ∧
    (∀ (mealSlot : String) (searchResults : List Recipe)
        (aiCall : List Recipe → Except String RecipeSelection)
        (getDetails : ℤ → Except String Recipe) (sel : RecipeSelection),
      searchResults ≠ [] →
      aiCall (offeredCandidates searchResults) = Except.ok sel →
      sel.selected_recipe_id ∉ searchResults.map Recipe.id →
      selectRecipeWithAI mealSlot searchResults aiCall getDetails =
        Except.error "Selected recipe not found in search results") := by
  constructor
  · intro searchResults
    refine ⟨?_, rfl⟩
    rw [offeredCandidates, List.length_take]
    exact min_le_left 5 searchResults.length
  · intro mealSlot searchResults aiCall getDetails sel hne hcall hnot
    have hfind : searchResults.find? (fun r => r.id == sel.selected_recipe_id) = none := by
      rw [List.find?_eq_none]
      intro r hr
      simp only [beq_iff_eq]
      intro hEq
      exact hnot (List.mem_map.mpr ⟨r, hr, hEq⟩)
    obtain ⟨x, xs, rfl⟩ := List.exists_cons_of_ne_nil hne
    simp [selectRecipeWithAI, hcall, hfind, Bind.bind, Except.bind]

/-- Witness for the amended C2: a selection naming an id absent from the
whole search-result list fails the stage. -/
theorem selectRecipe_candidate_validation_witness :
    selectRecipeWithAI "lunch_day1" sampleSixRecipes
        (fun _ => Except.ok sampleSelection999) (fun _ => Except.error "unused") =
      Except.error "Selected recipe not found in search results" :=
  selectRecipe_candidate_validation.2 "lunch_day1" sampleSixRecipes
    (fun _ => Except.ok sampleSelection999) (fun _ => Except.error "unused")
    sampleSelection999 (by simp [sampleSixRecipes]) rfl (by decide)

/-! ### Consolidation lemmas -/

/-- The nested source/ingredient loops equal one pass over the flattened
items. -/
theorem nested_foldl_eq_items (input : List (String × List ScaledIngredient)) :
    ∀ init, input.foldl
        (fun m p => p.2.foldl (fun m2 ing => consolidateStep m2 (p.1, ing)) m) init =
      (itemsOf input).foldl consolidateStep init := by
  induction input with
  | nil => intro init; rfl
  | cons p rest ih =>
    intro init
    simp only [List.foldl_cons, itemsOf, List.flatMap_cons, List.foldl_append, List.foldl_map]
    rw [← itemsOf]
    exact ih _

/-- `consolidateIngredients` in terms of `buildConsolidated`. -/
theorem consolidateIngredients_eq_build (input : List (String × List ScaledIngredient)) :
    consolidateIngredients input =
      sortByName ((buildConsolidated (itemsOf input)).map (fun p =>
        { p.2 with totalAmount := round2 p.2.totalAmount })) := by
  unfold consolidateIngredients buildConsolidated
  rw [nested_foldl_eq_items]

/-- Lookup after an in-place update. -/
theorem lookupKey_update (m : List (String × ConsolidatedIngredient))
    (key k rn : String) (ing : ScaledIngredient) :
    lookupKey (updateConsolidated m key rn ing) k =
      if key = k then absorb (lookupKey m k) (rn, ing) else lookupKey m k := by
  induction m with
  | nil =>
    by_cases h : key = k <;> simp [updateConsolidated, lookupKey, absorb, h]
  | cons hd tl ih =>
    obtain ⟨k2, c⟩ := hd
    by_cases h1 : k2 = key
    · subst h1
      by_cases h2 : k2 = k
      · subst h2
        simp [updateConsolidated, lookupKey, absorb]
      · simp [updateConsolidated, lookupKey, h2]
    · by_cases h2 : k2 = k
      · subst h2
        have hkey : ¬ key = k2 := fun h => h1 h.symm
        simp [updateConsolidated, lookupKey, h1, hkey]
      · simp [updateConsolidated, lookupKey, h1, h2, ih]

/-- Keys after an in-place update: unchanged on a hit, appended on a miss. -/
theorem mapFst_update (m : List (String × ConsolidatedIngredient))
    (key rn : String) (ing : ScaledIngredient) :
    (updateConsolidated m key rn ing).map Prod.fst =
      pushUnique (m.map Prod.fst) key := by
  induction m with
  | nil => simp [updateConsolidated, pushUnique]
  | cons hd tl ih =>
    obtain ⟨k2, c⟩ := hd
    by_cases h1 : k2 = key
    · subst h1
      simp [updateConsolidated, pushUnique]
    · have h1s : ¬ key = k2 := fun h => h1 h.symm
      by_cases h2 : key ∈ tl.map Prod.fst
      · simp [updateConsolidated, h1, ih, pushUnique, h2, h1s]
      · simp [updateConsolidated, h1, ih, pushUnique, h2, h1s]

/-- The entry stored under `k` after processing `items` is the fold of the
items whose key is `k`. -/
theorem lookupKey_foldl (items : List ConsItem) :
    ∀ (acc : List (String × ConsolidatedIngredient)) (k : String),
      lookupKey (items.foldl consolidateStep acc) k =
        (items.filter (fun it => keyOfItem it == k)).foldl absorb (lookupKey acc k) := by
  induction items with
  | nil => intro acc k; rfl
  | cons it rest ih =>
    intro acc k
    rw [List.foldl_cons, ih]
    by_cases h : keyOfItem it = k
    · rw [List.filter_cons_of_pos (by simpa using h), List.foldl_cons]
      congr 1
      show lookupKey (updateConsolidated acc (keyOfItem it) it.1 it.2) k = _
      rw [lookupKey_update, if_pos h]
    · rw [List.filter_cons_of_neg (by simpa using h)]
      congr 1
      show lookupKey (updateConsolidated acc (keyOfItem it) it.1 it.2) k = _
      rw [lookupKey_update, if_neg h]

/-- Folding `absorb` from an existing entry folds `addToEntry`. -/
theorem foldl_absorb_some (l : List ConsItem) :
    ∀ c : ConsolidatedIngredient,
      l.foldl absorb (some c) =
        some (l.foldl (fun c2 it => addToEntry c2 it.1 it.2) c) := by
  induction l with
  | nil => intro c; rfl
  | cons it rest ih => intro c; rw [List.foldl_cons, List.foldl_cons]; exact ih _

/-- Field-by-field description of merging a list of items into an entry:
name, unit and aisle never change; amounts add up; sources accumulate
without duplicates. -/
theorem foldl_addToEntry_fields (l : List ConsItem) :
    ∀ c : ConsolidatedIngredient,
      (l.foldl (fun c2 it => addToEntry c2 it.1 it.2) c).name = c.name ∧
      (l.foldl (fun c2 it => addToEntry c2 it.1 it.2) c).unit = c.unit ∧
      (l.foldl (fun c2 it => addToEntry c2 it.1 it.2) c).aisle = c.aisle ∧
      (l.foldl (fun c2 it => addToEntry c2 it.1 it.2) c).totalAmount =
        c.totalAmount + (l.map (fun it => it.2.amount)).sum ∧
      (l.foldl (fun c2 it => addToEntry c2 it.1 it.2) c).sources =
        (l.map Prod.fst).foldl pushUnique c.sources := by
  induction l with
  | nil => intro c; simp
  | cons it rest ih =>
    intro c
    obtain ⟨h1, h2, h3, h4, h5⟩ := ih (addToEntry c it.1 it.2)
    refine ⟨by simpa [addToEntry] using h1, by simpa [addToEntry] using h2,
      by simpa [addToEntry] using h3, ?_, ?_⟩
    · rw [List.foldl_cons, h4]
      simp [addToEntry, add_assoc]
    · rw [List.foldl_cons, h5]
      simp [addToEntry]

/-- Membership in `pushUnique`. -/
theorem mem_pushUnique {α : Type} [DecidableEq α] (l : List α) (x y : α) :
    y ∈ pushUnique l x ↔ y ∈ l ∨ y = x := by
  by_cases h : x ∈ l
  · simp only [pushUnique, if_pos h]
    constructor
    · exact Or.inl
    · rintro (h2 | rfl)
      · exact h2
      · exact h
  · simp [pushUnique, if_neg h]

/-- `pushUnique` preserves distinctness. -/
theorem nodup_pushUnique {α : Type} [DecidableEq α] (l : List α) (x : α)
    (h : l.Nodup) : (pushUnique l x).Nodup := by
  by_cases hx : x ∈ l
  · simpa [pushUnique, hx] using h
  · simp only [pushUnique, if_neg hx]
    simp [List.nodup_append, h, hx]

/-- Folding `pushUnique` preserves distinctness. -/
theorem nodup_foldl_pushUnique {α : Type} [DecidableEq α] (l : List α) :
    ∀ init : List α, init.Nodup → (l.foldl pushUnique init).Nodup := by
  induction l with
  | nil => intro init h; exact h
  | cons x rest ih => intro init h; exact ih _ (nodup_pushUnique _ _ h)

/-- Membership in a `pushUnique` fold. -/
theorem mem_foldl_pushUnique {α : Type} [DecidableEq α] (l : List α) :
    ∀ (init : List α) (y : α),
      y ∈ l.foldl pushUnique init ↔ y ∈ init ∨ y ∈ l := by
  induction l with
  | nil => intro init y; simp
  | cons x rest ih =>
    intro init y
    rw [List.foldl_cons, ih, mem_pushUnique]
    constructor
    · rintro ((h | rfl) | h)
      · exact Or.inl h
      · exact Or.inr (List.mem_cons_self _ _)
      · exact Or.inr (List.mem_cons_of_mem _ h)
    · rintro (h | h)
      · exact Or.inl (Or.inl h)
      · rcases List.mem_cons.mp h with rfl | h2
        · exact Or.inl (Or.inr rfl)
        · exact Or.inr h2

/-- Membership in a stable insertion. -/
theorem mem_insertByName (x : ConsolidatedIngredient) :
    ∀ (l : List ConsolidatedIngredient) (y : ConsolidatedIngredient),
      y ∈ insertByName x l ↔ y = x ∨ y ∈ l := by
  intro l
  induction l with
  | nil => intro y; simp [insertByName]
  | cons z zs ih =>
    intro y
    by_cases h : x.name < z.name
    · simp [insertByName, h]
    · simp only [insertByName, if_neg h, List.mem_cons, ih]
      tauto

/-- Insertion preserves sortedness by name. -/
theorem insertByName_pairwise (x : ConsolidatedIngredient) :
    ∀ l : List ConsolidatedIngredient,
      l.Pairwise (fun a b => a.name ≤ b.name) →
      (insertByName x l).Pairwise (fun a b => a.name ≤ b.name) := by
  intro l
  induction l with
  | nil => intro _; simp [insertByName]
  | cons z zs ih =>
    intro h
    rcases List.pairwise_cons.mp h with ⟨hz, hzs⟩
    by_cases hlt : x.name < z.name
    · rw [insertByName, if_pos hlt]
      refine List.pairwise_cons.mpr ⟨?_, h⟩
      intro y hy
      rcases List.mem_cons.mp hy with rfl | hy2
      · exact le_of_lt hlt
      · exact le_trans (le_of_lt hlt) (hz y hy2)
    · rw [insertByName, if_neg hlt]
      refine List.pairwise_cons.mpr ⟨?_, ih hzs⟩
      intro y hy
      rcases (mem_insertByName x zs y).mp hy with rfl | hy2
      · exact le_of_not_lt hlt
      · exact hz y hy2

/-- The insertion-sort fold sorts by name. -/
theorem sortByName_pairwise (l : List ConsolidatedIngredient) :
    (sortByName l).Pairwise (fun a b => a.name ≤ b.name) := by
  suffices h : ∀ (l acc : List ConsolidatedIngredient),
      acc.Pairwise (fun a b => a.name ≤ b.name) →
      (l.foldl (fun acc x => insertByName x acc) acc).Pairwise
        (fun a b => a.name ≤ b.name) from h l [] (by simp)
  intro l
  induction l with
  | nil => intro acc h; exact h
  | cons x rest ih => intro acc h; exact ih _ (insertByName_pairwise x acc h)

/-- Sorting preserves membership. -/
theorem mem_sortByName (l : List ConsolidatedIngredient) (y : ConsolidatedIngredient) :
    y ∈ sortByName l ↔ y ∈ l := by
  suffices h : ∀ (l acc : List ConsolidatedIngredient) (y : ConsolidatedIngredient),
      y ∈ l.foldl (fun acc x => insertByName x acc) acc ↔ y ∈ acc ∨ y ∈ l by
    rw [sortByName, h]
    simp
  intro l
  induction l with
  | nil => intro acc y; simp
  | cons x rest ih =>
    intro acc y
    rw [List.foldl_cons, ih, mem_insertByName]
    constructor
    · rintro ((rfl | h) | h)
      · exact Or.inr (List.mem_cons_self _ _)
      · exact Or.inl h
      · exact Or.inr (List.mem_cons_of_mem _ h)
    · rintro (h | h)
      · exact Or.inl (Or.inr h)
      · rcases List.mem_cons.mp h with rfl | h2
        · exact Or.inl (Or.inl rfl)
        · exact Or.inr h2

/-- Sorting preserves length. -/
theorem length_sortByName (l : List ConsolidatedIngredient) :
    (sortByName l).length = l.length := by
  have hins : ∀ (x : ConsolidatedIngredient) (l : List ConsolidatedIngredient),
      (insertByName x l).length = l.length + 1 := by
    intro x l
    induction l with
    | nil => rfl
    | cons z zs ih =>
      by_cases h : x.name < z.name
      · simp [insertByName, h]
      · simp [insertByName, h, ih]
  suffices h : ∀ (l acc : List ConsolidatedIngredient),
      (l.foldl (fun acc x => insertByName x acc) acc).length = acc.length + l.length from
    by simpa using h l []
  intro l
  induction l with
  | nil => intro acc; simp
  | cons x rest ih =>
    intro acc
    rw [List.foldl_cons, ih, hins]
    simp [List.length_cons]
    omega

/-- Keys of the built map: the item keys deduplicated in first-occurrence
order. -/
theorem mapFst_build (items : List ConsItem) :
    (buildConsolidated items).map Prod.fst = dedupF (items.map keyOfItem) := by
  suffices h : ∀ (items : List ConsItem) (acc : List (String × ConsolidatedIngredient)),
      (items.foldl consolidateStep acc).map Prod.fst =
        (items.map keyOfItem).foldl pushUnique (acc.map Prod.fst) by
    rw [buildConsolidated, h]
    rfl
  intro items
  induction items with
  | nil => intro acc; rfl
  | cons it rest ih =>
    intro acc
    rw [List.foldl_cons, ih, List.map_cons, List.foldl_cons]
    congr 1
    exact mapFst_update acc (keyOfItem it) it.1 it.2

/-- The built map has distinct keys. -/
theorem nodup_mapFst_build (items : List ConsItem) :
    ((buildConsolidated items).map Prod.fst).Nodup := by
  rw [mapFst_build]
  exact nodup_foldl_pushUnique _ [] (by simp)

/-- In an association list with distinct keys, membership determines lookup. -/
theorem lookupKey_of_mem (m : List (String × ConsolidatedIngredient))
    (hnodup : (m.map Prod.fst).Nodup) (k : String) (c : ConsolidatedIngredient)
    (hmem : (k, c) ∈ m) : lookupKey m k = some c := by
  induction m with
  | nil => cases hmem
  | cons hd tl ih =>
    obtain ⟨k2, c2⟩ := hd
    rw [List.map_cons, List.nodup_cons] at hnodup
    rcases List.mem_cons.mp hmem with heq | hmem2
    · rw [Prod.mk.injEq] at heq
      obtain ⟨rfl, rfl⟩ := heq
      simp [lookupKey]
    · have hne : ¬ k2 = k := by
        rintro rfl
        exact hnodup.1 (List.mem_map.mpr ⟨(k2, c), hmem2, rfl⟩)
      rw [lookupKey, if_neg hne]
      exact ih hnodup.2 hmem2

/-- Structure of every consolidated entry: it is generated by the first
flattened item with its string key, in iteration order, followed by the
later items with the same key; the displayed name, unit and aisle come from
that first item, the total is the rounded sum of all matching amounts, and
the sources are the contributing source names without duplicates. -/
theorem consolidate_mem_spec (input : List (String × List ScaledIngredient))
    (c : ConsolidatedIngredient) (hc : c ∈ consolidateIngredients input) :
    ∃ (first : ConsItem) (rest : List ConsItem),
      (itemsOf input).filter (fun it => keyOfItem it == keyOfItem first) = first :: rest ∧
      c.name = first.2.name ∧
      c.unit = first.2.unit ∧
      c.aisle = aisleOrOther first.2.aisle ∧
      c.totalAmount = round2 (first.2.amount + (rest.map (fun it => it.2.amount)).sum) ∧
      c.sources = (rest.map Prod.fst).foldl pushUnique [first.1] := by
  rw [consolidateIngredients_eq_build, mem_sortByName] at hc
  obtain ⟨p, hp, hpc⟩ := List.mem_map.mp hc
  obtain ⟨k, c0⟩ := p
  have hlook : lookupKey (buildConsolidated (itemsOf input)) k = some c0 :=
    lookupKey_of_mem _ (nodup_mapFst_build _) k c0 hp
  rw [buildConsolidated, lookupKey_foldl] at hlook
  rcases hfil : (itemsOf input).filter (fun it => keyOfItem it == k) with _ | ⟨first, rest⟩
  · rw [hfil] at hlook
    cases hlook
  · rw [hfil, List.foldl_cons,
      show absorb (lookupKey [] k) first = some (newEntry first.1 first.2) from rfl,
      foldl_absorb_some] at hlook
    have hc0 : c0 = rest.foldl (fun c2 it => addToEntry c2 it.1 it.2)
        (newEntry first.1 first.2) := by
      injection hlook with h
      exact h.symm
    have hkey : keyOfItem first = k := by
      have hmemf : first ∈ (itemsOf input).filter (fun it => keyOfItem it == k) := by
        rw [hfil]
        exact List.mem_cons_self _ _
      simpa using (List.mem_filter.mp hmemf).2
    obtain ⟨hn, hu, ha, ht, hs⟩ := foldl_addToEntry_fields rest (newEntry first.1 first.2)
    subst hpc
    subst hc0
    refine ⟨first, rest, ?_, ?_, ?_, ?_, ?_, ?_⟩
    · rw [hkey]
      exact hfil
    · simpa [newEntry] using hn
    · simpa [newEntry] using hu
    · simpa [newEntry] using ha
    · have : (rest.foldl (fun c2 it => addToEntry c2 it.1 it.2)
          (newEntry first.1 first.2)).totalAmount =
          first.2.amount + (rest.map (fun it => it.2.amount)).sum := by
        simpa [newEntry] using ht
      simp [this]
    · simpa [newEntry] using hs

/-- Counterexample to claim C6: two ingredients whose case-insensitive
(name, unit) pairs differ — ("a_b", "c") versus ("a", "b_c") — are merged
into a single entry, because the code keys on the concatenated string
`name + "_" + unit` and both yield "a_b_c"; grouping by the (name, unit)
pair would produce two entries. -/
theorem consolidate_pair_key_counterexample :
    (consolidateIngredients collisionInput).length = 1 ∧
    (pairKeysOf collisionInput).length = 2 := by
  constructor
  · norm_num +decide [consolidateIngredients, collisionInput, consolidateStep,
      updateConsolidated, keyOfItem, keyOf, lowerStr, newEntry, addToEntry, aisleOrOther,
      sortByName, insertByName, round2, jsRound, itemsOf, pushUnique]
  · decide

/-- Claim C6 as amended: `consolidateIngredients` groups the flattened
ingredients by the lowercased concatenated string key `name + "_" + unit`
(which agrees with the case-insensitive (name, unit) pair except when
underscores make distinct pairs collide), sums the amounts of each group
with the sum rounded to two decimals, lists each contributing source name
exactly once per entry, defaults a missing aisle to "Other", and returns the
entries sorted by name; in particular 1.5 "Flour"/"cup" and 2.25
"flour"/"cup" from two sources merge into one entry totalling 3.75 with both
sources listed. -/
theorem consolidateIngredients_amended :
    (∀ input, (consolidateIngredients input).length = (stringKeysOf input).length) ∧
    (∀ input, (consolidateIngredients input).Pairwise (fun a b => a.name ≤ b.name)) ∧
    (∀ input c, c ∈ consolidateIngredients input →
      c.sources.Nodup ∧
      ∃ (first : ConsItem) (rest : List ConsItem),
        (itemsOf input).filter (fun it => keyOfItem it == keyOfItem first) = first :: rest ∧
        c.totalAmount = round2 (first.2.amount + (rest.map (fun it => it.2.amount)).sum) ∧
        c.aisle = aisleOrOther first.2.aisle ∧
        (∀ rn, rn ∈ c.sources ↔ rn = first.1 ∨ rn ∈ rest.map Prod.fst)) ∧
    consolidateIngredients flourInput = [flourEntry] := by
  refine ⟨?_, ?_, ?_, ?_⟩
  · intro input
    rw [consolidateIngredients_eq_build, length_sortByName, List.length_map,
      stringKeysOf, ← mapFst_build, List.length_map]
  · intro input
    rw [consolidateIngredients_eq_build]
    exact sortByName_pairwise _
  · intro input c hc
    obtain ⟨first, rest, hfil, hname, hunit, haisle, htot, hsrc⟩ :=
      consolidate_mem_spec input c hc
    constructor
    · rw [hsrc]
      exact nodup_foldl_pushUnique _ _ (by simp)
    · refine ⟨first, rest, hfil, htot, haisle, ?_⟩
      intro rn
      rw [hsrc, mem_foldl_pushUnique]
      simp [or_comm]
  · norm_num +decide [consolidateIngredients, flourInput, flourEntry, consolidateStep,
      updateConsolidated, keyOfItem, keyOf, lowerStr, newEntry, addToEntry, aisleOrOther,
      sortByName, insertByName, round2, jsRound, itemsOf, pushUnique]

/-- Witness for the amended C6: the flour entry has duplicate-free sources,
via the theorem at the concrete flour input. -/
theorem consolidateIngredients_amended_witness :
    flourEntry.sources.Nodup :=
  (consolidateIngredients_amended.2.2.1 flourInput flourEntry
    (by rw [consolidateIngredients_amended.2.2.2]; exact List.mem_singleton_self _)).1

/-- Claim C10: every merged output entry carries the name, unit and aisle
spelling of its first contributing ingredient in iteration order (first
source, then ingredient order; a falsy aisle defaults to "Other"), and the
later ingredients with the same lowercased key only add their amount and
their source name — they never change the displayed name, unit or aisle. -/
theorem consolidate_first_contributor (input : List (String × List ScaledIngredient))
    (c : ConsolidatedIngredient) (hc : c ∈ consolidateIngredients input) :
    ∃ (first : ConsItem) (rest : List ConsItem),
      (itemsOf input).filter (fun it => keyOfItem it == keyOfItem first) = first :: rest ∧
      c.name = first.2.name ∧
      c.unit = first.2.unit ∧
      c.aisle = aisleOrOther first.2.aisle ∧
      c.totalAmount = round2 (first.2.amount + (rest.map (fun it => it.2.amount)).sum) ∧
      c.sources = (rest.map Prod.fst).foldl pushUnique [first.1] :=
  consolidate_mem_spec input c hc

/-- Witness for C10 at the collision input: the single merged entry displays
the first contributor's spelling "a_b"/"c". -/
theorem consolidate_first_contributor_witness :
    ∃ (first : ConsItem) (rest : List ConsItem),
      (itemsOf collisionInput).filter (fun it => keyOfItem it == keyOfItem first) =
        first :: rest ∧
      ({ name := "a_b", totalAmount := 3, unit := "c", sources := ["r1", "r2"],
         aisle := "Other" } : ConsolidatedIngredient).name = first.2.name ∧
      ({ name := "a_b", totalAmount := 3, unit := "c", sources := ["r1", "r2"],
         aisle := "Other" } : ConsolidatedIngredient).unit = first.2.unit ∧
      ({ name := "a_b", totalAmount := 3, unit := "c", sources := ["r1", "r2"],
         aisle := "Other" } : ConsolidatedIngredient).aisle = aisleOrOther first.2.aisle ∧
      ({ name := "a_b", totalAmount := 3, unit := "c", sources := ["r1", "r2"],
         aisle := "Other" } : ConsolidatedIngredient).totalAmount =
        round2 (first.2.amount + (rest.map (fun it => it.2.amount)).sum) ∧
      ({ name := "a_b", totalAmount := 3, unit := "c", sources := ["r1", "r2"],
         aisle := "Other" } : ConsolidatedIngredient).sources =
        (rest.map Prod.fst).foldl pushUnique [first.1] :=
  consolidate_first_contributor collisionInput
    { name := "a_b", totalAmount := 3, unit := "c", sources := ["r1", "r2"],
      aisle := "Other" }
    (by norm_num +decide [consolidateIngredients, collisionInput, consolidateStep,
      updateConsolidated, keyOfItem, keyOf, lowerStr, newEntry, addToEntry, aisleOrOther,
      sortByName, insertByName, round2, jsRound, itemsOf, pushUnique])

end HungryHippos
